import Mathlib

/-
  Verification development for the mailscout email-processing core.

  Shallow embedding of:
  - `src/models/email_filter.py` (`DataExtractionRule.compile_pattern`,
    `DataExtractionRule.extract_from_table`, `DataExtractionRule.extract_data`,
    `WebhookConfig`),
  - `src/services/webhook_service.py` (`WebhookService.generate_signature`,
    `WebhookService.notify`),
  - `src/services/filter_service.py` (`GenericTransactionAdapter`),
  - `src/services/gmail_service.py` (the extraction loop of
    `GmailService.process_filter`).

  External libraries used by the source are modelled executably:
  Python `re` by a small backtracking regex engine covering the construct
  subset the repository uses (compiled, as in the source, with MULTILINE and
  DOTALL semantics always on); `hashlib`/`hmac` by a concrete SHA-256/HMAC
  implementation on byte lists; BeautifulSoup's HTML tree by a small document
  tree with preorder traversal, `select`, `find_next` and `select_one`.
  Mutable Python state (the lazily cached compiled pattern) is explicit state
  passing; Python exceptions are `Except`.
-/

set_option maxRecDepth 10000

/-! ## Python-style string helpers -/

/-- ASCII lower-casing of one character, as Python `str.lower` acts on ASCII. -/
def charLower (c : Char) : Char :=
  if 'A' ≤ c ∧ c ≤ 'Z' then Char.ofNat (c.toNat + 32) else c

/-- ASCII upper-casing of one character, as Python `str.upper` acts on ASCII. -/
def charUpper (c : Char) : Char :=
  if 'a' ≤ c ∧ c ≤ 'z' then Char.ofNat (c.toNat - 32) else c

/-- Python `str.lower` (ASCII fragment). -/
def pyLower (s : String) : String := String.mk (s.data.map charLower)

/-- Python `str.upper` (ASCII fragment). -/
def pyUpper (s : String) : String := String.mk (s.data.map charUpper)

/-- The characters Python `str.strip` removes. -/
def isPySpace (c : Char) : Bool :=
  c = ' ' ∨ c = '\t' ∨ c = '\n' ∨ c = '\r' ∨ c = '\x0b' ∨ c = '\x0c'

/-- Python `str.strip` with no arguments. -/
def pyStrip (s : String) : String :=
  String.mk (((s.data.dropWhile isPySpace).reverse.dropWhile isPySpace).reverse)

/-- `listBegins p s` holds when `p` is an initial segment of `s`. -/
def listBegins : List Char → List Char → Bool
  | [], _ => true
  | _ :: _, [] => false
  | a :: as, b :: bs => a = b && listBegins as bs

/-- Whether `needle` occurs as a contiguous sublist of `hay`. -/
def hasSub (hay needle : List Char) : Bool :=
  match hay with
  | [] => listBegins needle []
  | _ :: rest => listBegins needle hay || hasSub rest needle

/-- Python `needle in hay` on strings (substring containment). -/
def pyIn (needle hay : String) : Bool := hasSub hay.data needle.data

/-! ## Association lists modelling Python `dict` (insertion ordered) -/

/-- First value stored under key `k`. -/
def alGet? (l : List (String × String)) (k : String) : Option String :=
  match l with
  | [] => none
  | (k', v) :: rest => if k' = k then some v else alGet? rest k

/-- Python `k in d`. -/
def alContains (l : List (String × String)) (k : String) : Bool :=
  (alGet? l k).isSome

/-- Python `d.get(k, dflt)`. -/
def alGetD (l : List (String × String)) (k dflt : String) : String :=
  (alGet? l k).getD dflt

/-- Python `d[k] = v`: update in place if the key exists, else append. -/
def alSet (l : List (String × String)) (k v : String) : List (String × String) :=
  match l with
  | [] => [(k, v)]
  | (k', v') :: rest => if k' = k then (k, v) :: rest else (k', v') :: alSet rest k v

/-- Python `del d[k]` for a dict (a key occurs at most once). -/
def alErase (l : List (String × String)) (k : String) : List (String × String) :=
  match l with
  | [] => []
  | (k', v') :: rest => if k' = k then rest else (k', v') :: alErase rest k

/-- Decidable equality for `Except`, used to evaluate statements about
    fallible operations on concrete inputs. -/
instance {ε α : Type} [DecidableEq ε] [DecidableEq α] : DecidableEq (Except ε α) := fun a b =>
  match a, b with
  | .ok x, .ok y =>
    if h : x = y then isTrue (congrArg Except.ok h)
    else isFalse (fun hh => h (Except.ok.inj hh))
  | .error x, .error y =>
    if h : x = y then isTrue (congrArg Except.error h)
    else isFalse (fun hh => h (Except.error.inj hh))
  | .ok _, .error _ => isFalse (fun hh => Except.noConfusion hh)
  | .error _, .ok _ => isFalse (fun hh => Except.noConfusion hh)

/-! ## Regex engine (model of the fragment of Python `re` the source uses)

The source always compiles with `re.MULTILINE | re.DOTALL`
(`email_filter.py` line 66), so `.` matches any character, `^` matches at the
start of the string or after a newline, and `$` at the end or before a
newline. -/

/-- Regex abstract syntax. `star` carries a greediness flag; `+` and `?` are
    compiled into `seq`/`alt`/`star`. -/
inductive Re where
  | eps : Re
  | chr (c : Char) : Re
  | anyc : Re
  | cls (neg : Bool) (ranges : List (Char × Char)) : Re
  | caret : Re
  | dollar : Re
  | seq (a b : Re) : Re
  | alt (a b : Re) : Re
  | star (greedy : Bool) (a : Re) : Re
  | group (idx : Nat) (name : Option String) (a : Re) : Re
deriving Repr, DecidableEq

/-- A compiled pattern: the syntax tree, the number of capture groups, and the
    named groups with their indices. -/
structure CompiledPattern where
  ast : Re
  ngroups : Nat
  names : List (String × Nat)
deriving Repr, DecidableEq

/-- Parser state: the next free group index and named groups seen so far. -/
structure PState where
  next : Nat
  names : List (String × Nat)
deriving Repr, DecidableEq

/-- Character ranges for the `\d` class. -/
def dRanges : List (Char × Char) := [('0', '9')]

/-- Character ranges for the `\s` class. -/
def sRanges : List (Char × Char) :=
  [(' ', ' '), ('\t', '\t'), ('\n', '\n'), ('\r', '\r'), ('\x0b', '\x0b'), ('\x0c', '\x0c')]

/-- Character ranges for the `\w` class. -/
def wRanges : List (Char × Char) :=
  [('a', 'z'), ('A', 'Z'), ('0', '9'), ('_', '_')]

/-- Interpretation of a letter escape as a character class, when it is one. -/
def escClass? (c : Char) : Option (Bool × List (Char × Char)) :=
  if c = 'd' then some (false, dRanges)
  else if c = 'D' then some (true, dRanges)
  else if c = 's' then some (false, sRanges)
  else if c = 'S' then some (true, sRanges)
  else if c = 'w' then some (false, wRanges)
  else if c = 'W' then some (true, wRanges)
  else none

/-- Whether an escaped letter has no meaning we support (Python rejects
    unknown letter escapes as `bad escape`). -/
def isAsciiLetterOrDigit (c : Char) : Bool :=
  ('a' ≤ c && c ≤ 'z') || ('A' ≤ c && c ≤ 'Z') || ('0' ≤ c && c ≤ '9')

/-- Parse the items of a character class after `[` (and an optional `^`),
    up to the closing `]`. -/
def parseClsItems : Nat → List Char → Except String (List (Char × Char) × List Char)
  | 0, _ => .error "class fuel exhausted"
  | fuel + 1, cs =>
    match cs with
    | [] => .error "unterminated character set"
    | ']' :: rest => .ok ([], rest)
    | '\\' :: e :: rest =>
      match escClass? e with
      | some (neg, rs) =>
        if neg then .error "negated escape in class unsupported"
        else
          match parseClsItems fuel rest with
          | .ok (more, r2) => .ok (rs ++ more, r2)
          | .error m => .error m
      | none =>
        if isAsciiLetterOrDigit e then .error "bad escape in class"
        else
          match parseClsItems fuel rest with
          | .ok (more, r2) => .ok ((e, e) :: more, r2)
          | .error m => .error m
    | a :: '-' :: b :: rest =>
      if b = ']' then
        match parseClsItems fuel (b :: rest) with
        | .ok (more, r2) => .ok ((a, a) :: ('-', '-') :: more, r2)
        | .error m => .error m
      else
        match parseClsItems fuel rest with
        | .ok (more, r2) => .ok ((a, b) :: more, r2)
        | .error m => .error m
    | a :: rest =>
      match parseClsItems fuel rest with
      | .ok (more, r2) => .ok ((a, a) :: more, r2)
      | .error m => .error m

/-- Parse a group name after `(?P<`, up to `>`. -/
def parseGroupName : Nat → List Char → Except String (List Char × List Char)
  | 0, _ => .error "name fuel exhausted"
  | _, [] => .error "missing >, unterminated name"
  | fuel + 1, c :: rest =>
    if c = '>' then .ok ([], rest)
    else
      match parseGroupName fuel rest with
      | .ok (nm, r2) => .ok (c :: nm, r2)
      | .error m => .error m

/-- Apply a postfix quantifier (`*`, `+`, `?`, optionally lazy via a trailing
    `?`) to a parsed atom. -/
def parseQuant (a : Re) (cs : List Char) : Except String (Re × List Char) :=
  match cs with
  | '*' :: '?' :: rest => .ok (.star false a, rest)
  | '*' :: rest => .ok (.star true a, rest)
  | '+' :: '?' :: rest => .ok (.seq a (.star false a), rest)
  | '+' :: rest => .ok (.seq a (.star true a), rest)
  | '?' :: '?' :: rest => .ok (.alt .eps a, rest)
  | '?' :: rest => .ok (.alt a .eps, rest)
  | _ => .ok (a, cs)

mutual

/-- Parse an alternation (`a|b|...`). -/
def parseAltFn : Nat → List Char → PState → Except String (Re × List Char × PState)
  | 0, _, _ => .error "fuel exhausted"
  | fuel + 1, cs, st =>
    match parseSeqFn fuel cs st with
    | .error m => .error m
    | .ok (a, rest, st') =>
      match rest with
      | '|' :: rest' =>
        match parseAltFn fuel rest' st' with
        | .error m => .error m
        | .ok (b, rest2, st2) => .ok (.alt a b, rest2, st2)
      | _ => .ok (a, rest, st')

/-- Parse a sequence of quantified atoms up to `|`, `)` or the end. -/
def parseSeqFn : Nat → List Char → PState → Except String (Re × List Char × PState)
  | 0, _, _ => .error "fuel exhausted"
  | fuel + 1, cs, st =>
    match cs with
    | [] => .ok (.eps, [], st)
    | '|' :: _ => .ok (.eps, cs, st)
    | ')' :: _ => .ok (.eps, cs, st)
    | _ =>
      match parseAtomFn fuel cs st with
      | .error m => .error m
      | .ok (a, rest, st') =>
        match parseQuant a rest with
        | .error m => .error m
        | .ok (a', rest') =>
          match parseSeqFn fuel rest' st' with
          | .error m => .error m
          | .ok (b, rest2, st2) => .ok (.seq a' b, rest2, st2)

/-- Parse a single atom: a group, a class, an escape, an anchor, `.`,
    or a literal character. -/
def parseAtomFn : Nat → List Char → PState → Except String (Re × List Char × PState)
  | 0, _, _ => .error "fuel exhausted"
  | fuel + 1, cs, st =>
    match cs with
    | [] => .error "empty atom"
    | '(' :: rest =>
      match rest with
      | '?' :: 'P' :: '<' :: r2 =>
        match parseGroupName fuel r2 with
        | .error m => .error m
        | .ok (nm, r3) =>
          let idx := st.next
          let st1 : PState := ⟨st.next + 1, st.names ++ [(String.mk nm, idx)]⟩
          match parseAltFn fuel r3 st1 with
          | .error m => .error m
          | .ok (inner, r4, st2) =>
            match r4 with
            | ')' :: r5 => .ok (.group idx (some (String.mk nm)) inner, r5, st2)
            | _ => .error "missing ), unterminated subpattern"
      | '?' :: _ => .error "unsupported group extension"
      | _ =>
        let idx := st.next
        let st1 : PState := ⟨st.next + 1, st.names⟩
        match parseAltFn fuel rest st1 with
        | .error m => .error m
        | .ok (inner, r2, st2) =>
          match r2 with
          | ')' :: r3 => .ok (.group idx none inner, r3, st2)
          | _ => .error "missing ), unterminated subpattern"
    | '[' :: rest =>
      match rest with
      | '^' :: r2 =>
        match parseClsItems fuel r2 with
        | .error m => .error m
        | .ok (rs, r3) => .ok (.cls true rs, r3, st)
      | _ =>
        match parseClsItems fuel rest with
        | .error m => .error m
        | .ok (rs, r2) => .ok (.cls false rs, r2, st)
    | '\\' :: e :: rest =>
      match escClass? e with
      | some (neg, rs) => .ok (.cls neg rs, rest, st)
      | none =>
        if isAsciiLetterOrDigit e then .error "bad escape"
        else .ok (.chr e, rest, st)
    | '\\' :: [] => .error "bad escape at end"
    | '^' :: rest => .ok (.caret, rest, st)
    | '$' :: rest => .ok (.dollar, rest, st)
    | '.' :: rest => .ok (.anyc, rest, st)
    | '*' :: _ => .error "nothing to repeat"
    | '+' :: _ => .error "nothing to repeat"
    | '?' :: _ => .error "nothing to repeat"
    | c :: rest => .ok (.chr c, rest, st)

end

/-- Model of `re.compile` on the supported fragment: parse the pattern or
    fail with an error, as `re.compile` raises `re.error`. -/
def reCompile (pat : String) : Except String CompiledPattern :=
  match parseAltFn (pat.length * 4 + 16) pat.data ⟨1, []⟩ with
  | .error m => .error m
  | .ok (re, rest, st) =>
    match rest with
    | [] => .ok ⟨re, st.next - 1, st.names⟩
    | _ => .error "unbalanced parenthesis"

/-- Capture store: latest write for a group index wins. -/
def capLookup (caps : List (Nat × String)) (i : Nat) : Option String :=
  match caps with
  | [] => none
  | (j, s) :: rest => if j = i then some s else capLookup rest i

/-- Character of `full` at absolute position `pos`. -/
def charAt (full : List Char) (pos : Nat) : Option Char := (full.drop pos).head?

/-- Substring of `full` from position `a` (inclusive) to `b` (exclusive). -/
def subStr (full : List Char) (a b : Nat) : String :=
  String.mk ((full.drop a).take (b - a))

/-- Whether a character is inside a (possibly negated) class. -/
def clsMatch (neg : Bool) (ranges : List (Char × Char)) (c : Char) : Bool :=
  let inR := ranges.any (fun p => p.1 ≤ c && c ≤ p.2)
  if neg then !inR else inR

/-- Backtracking matcher in continuation-passing style. The continuation
    receives the end position and captures of a candidate match; returning
    `none` from it triggers backtracking. MULTILINE and DOTALL are always on,
    matching the source's compilation flags. -/
def mtch : Nat → Re → List Char → Nat → List (Nat × String) →
    (Nat → List (Nat × String) → Option (Nat × List (Nat × String))) →
    Option (Nat × List (Nat × String))
  | 0, _, _, _, _, _ => none
  | fuel + 1, re, full, pos, caps, k =>
    match re with
    | .eps => k pos caps
    | .chr c =>
      match charAt full pos with
      | some d => if d = c then k (pos + 1) caps else none
      | none => none
    | .anyc =>
      match charAt full pos with
      | some _ => k (pos + 1) caps
      | none => none
    | .cls neg rs =>
      match charAt full pos with
      | some d => if clsMatch neg rs d then k (pos + 1) caps else none
      | none => none
    | .caret =>
      if pos = 0 ∨ charAt full (pos - 1) = some '\n' then k pos caps else none
    | .dollar =>
      if pos = full.length ∨ charAt full pos = some '\n' then k pos caps else none
    | .seq a b => mtch fuel a full pos caps (fun p c => mtch fuel b full p c k)
    | .alt a b =>
      match mtch fuel a full pos caps k with
      | some r => some r
      | none => mtch fuel b full pos caps k
    | .star greedy a =>
      if greedy then
        match mtch fuel a full pos caps
          (fun p c => if p = pos then none else mtch fuel (.star greedy a) full p c k) with
        | some r => some r
        | none => k pos caps
      else
        match k pos caps with
        | some r => some r
        | none =>
          mtch fuel a full pos caps
            (fun p c => if p = pos then none else mtch fuel (.star greedy a) full p c k)
    | .group idx _ a =>
      mtch fuel a full pos caps (fun p c => k p ((idx, subStr full pos p) :: c))

/-- Size of a regex tree, used for the matcher fuel. -/
def reSize : Re → Nat
  | .eps => 1
  | .chr _ => 1
  | .anyc => 1
  | .cls _ _ => 1
  | .caret => 1
  | .dollar => 1
  | .seq a b => reSize a + reSize b + 1
  | .alt a b => reSize a + reSize b + 1
  | .star _ a => reSize a + 1
  | .group _ _ a => reSize a + 1

/-- Fuel that suffices for the matcher on the inputs we evaluate. -/
def mtchFuel (re : Re) (len : Nat) : Nat := (reSize re + 8) * (len + 8) * 2

/-- Scan positions left to right; at each position try a full match, as
    `re.search` does. Returns start, end and captures of the leftmost match. -/
def searchFrom (ast : Re) (full : List Char) :
    Nat → Nat → Option (Nat × Nat × List (Nat × String))
  | _, 0 => none
  | pos, tries + 1 =>
    match mtch (mtchFuel ast full.length) ast full pos [] (fun p c => some (p, c)) with
    | some (e, caps) => some (pos, e, caps)
    | none => searchFrom ast full (pos + 1) tries

/-- A match as Python exposes it: `group(0)`, the positional groups
    (`None` for a group that did not participate), and the named-group dict. -/
structure ReMatch where
  group0 : String
  groups : List (Option String)
  gdict : List (String × Option String)
deriving Repr, DecidableEq

/-- Model of `compiled.search(s)`. -/
def reSearch (cp : CompiledPattern) (s : String) : Option ReMatch :=
  match searchFrom cp.ast s.data 0 (s.data.length + 1) with
  | none => none
  | some (a, b, caps) =>
    some { group0 := subStr s.data a b
           groups := (List.range cp.ngroups).map (fun j => capLookup caps (j + 1))
           gdict := cp.names.map (fun p => (p.1, capLookup caps p.2)) }

/-! ## SHA-256 and HMAC (model of `hashlib.sha256` / `hmac.new(...).hexdigest()`)

Bytes and 32-bit words are `Nat` with explicit reduction modulo `2^32`. -/

/-- Reduce modulo `2^32`. -/
def w32 (n : Nat) : Nat := n % 4294967296

/-- Right-rotation of a 32-bit word. -/
def rotr (n x : Nat) : Nat := w32 ((x >>> n) + ((x % 2 ^ n) <<< (32 - n)))

/-- The 64 SHA-256 round constants (written in decimal). -/
def sha256K : List Nat :=
  [1116352408, 1899447441, 3049323471, 3921009573, 961987163, 1508970993,
   2453635748, 2870763221, 3624381080, 310598401, 607225278, 1426881987,
   1925078388, 2162078206, 2614888103, 3248222580, 3835390401, 4022224774,
   264347078, 604807628, 770255983, 1249150122, 1555081692, 1996064986,
   2554220882, 2821834349, 2952996808, 3210313671, 3336571891, 3584528711,
   113926993, 338241895, 666307205, 773529912, 1294757372, 1396182291,
   1695183700, 1986661051, 2177026350, 2456956037, 2730485921, 2820302411,
   3259730800, 3345764771, 3516065817, 3600352804, 4094571909, 275423344,
   430227734, 506948616, 659060556, 883997877, 958139571, 1322822218,
   1537002063, 1747873779, 1955562222, 2024104815, 2227730452, 2361852424,
   2428436474, 2756734187, 3204031479, 3329325298]

/-- The SHA-256 initial hash state (written in decimal). -/
def sha256Init : List Nat :=
  [1779033703, 3144134277, 1013904242, 2773480762,
   1359893119, 2600822924, 528734635, 1541459225]

/-- `k` bytes of `n` in big-endian order. -/
def toBytesBE : Nat → Nat → List Nat
  | 0, _ => []
  | k + 1, n => toBytesBE k (n / 256) ++ [n % 256]

/-- Big-endian 32-bit words from a byte list. -/
def bytesToWords : List Nat → List Nat
  | b0 :: b1 :: b2 :: b3 :: rest => (((b0 * 256 + b1) * 256 + b2) * 256 + b3) :: bytesToWords rest
  | _ => []

/-- SHA-256 message padding: `0x80`, zeros, then the 64-bit bit length. -/
def padMsg (msg : List Nat) : List Nat :=
  let len := msg.length
  let zeros := (119 - len % 64) % 64
  msg ++ 0x80 :: List.replicate zeros 0 ++ toBytesBE 8 (len * 8)

/-- Split into 64-byte blocks. -/
def chunks64 : Nat → List Nat → List (List Nat)
  | 0, _ => []
  | _, [] => []
  | fuel + 1, l => l.take 64 :: chunks64 fuel (l.drop 64)

/-- The two small sigma functions of the message schedule. -/
def sig0 (x : Nat) : Nat := w32 (rotr 7 x ^^^ rotr 18 x ^^^ (x >>> 3))

/-- Second small sigma function. -/
def sig1 (x : Nat) : Nat := w32 (rotr 17 x ^^^ rotr 19 x ^^^ (x >>> 10))

/-- Extend the 16 block words to the 64-entry message schedule. -/
def extendSched : Nat → List Nat → List Nat
  | 0, acc => acc
  | n + 1, acc =>
    let i := acc.length
    let wi := w32 (acc.getD (i - 16) 0 + sig0 (acc.getD (i - 15) 0) +
                   acc.getD (i - 7) 0 + sig1 (acc.getD (i - 2) 0))
    extendSched n (acc ++ [wi])

/-- The SHA-256 compression rounds over paired round constants and
    schedule words. -/
def compress : List (Nat × Nat) → Nat → Nat → Nat → Nat → Nat → Nat → Nat → Nat → List Nat
  | [], a, b, c, d, e, f, g, h => [a, b, c, d, e, f, g, h]
  | (k, w) :: rest, a, b, c, d, e, f, g, h =>
    let s1 := w32 (rotr 6 e ^^^ rotr 11 e ^^^ rotr 25 e)
    let ch := w32 ((e &&& f) ^^^ ((e ^^^ 4294967295) &&& g))
    let t1 := w32 (h + s1 + ch + k + w)
    let s0 := w32 (rotr 2 a ^^^ rotr 13 a ^^^ rotr 22 a)
    let mj := w32 ((a &&& b) ^^^ (a &&& c) ^^^ (b &&& c))
    let t2 := w32 (s0 + mj)
    compress rest (w32 (t1 + t2)) a b c (w32 (d + t1)) e f g

/-- One SHA-256 block update. -/
def sha256Block (hs block : List Nat) : List Nat :=
  let ws := extendSched 48 (bytesToWords block)
  match hs with
  | [a, b, c, d, e, f, g, h] =>
    match compress (List.zip sha256K ws) a b c d e f g h with
    | [a', b', c', d', e', f', g', h'] =>
      [w32 (a + a'), w32 (b + b'), w32 (c + c'), w32 (d + d'),
       w32 (e + e'), w32 (f + f'), w32 (g + g'), w32 (h + h')]
    | _ => hs
  | _ => hs

/-- SHA-256 of a byte list, as a 32-byte list. -/
def sha256 (msg : List Nat) : List Nat :=
  let padded := padMsg msg
  let hs := (chunks64 (padded.length + 64) padded).foldl sha256Block sha256Init
  hs.foldr (fun h acc => toBytesBE 4 h ++ acc) []

/-- HMAC-SHA256 over byte lists (RFC 2104 with a 64-byte block). -/
def hmacSha256 (key msg : List Nat) : List Nat :=
  let k0 := if key.length > 64 then sha256 key else key
  let k1 := k0 ++ List.replicate (64 - k0.length) 0
  let ip := k1.map (fun b => b ^^^ 0x36)
  let op := k1.map (fun b => b ^^^ 0x5c)
  sha256 (op ++ sha256 (ip ++ msg))

/-- UTF-8 encoding of one character, as byte values. -/
def utf8Char (c : Char) : List Nat :=
  let n := c.toNat
  if n < 0x80 then [n]
  else if n < 0x800 then [0xc0 + n / 64, 0x80 + n % 64]
  else if n < 0x10000 then [0xe0 + n / 4096, 0x80 + n / 64 % 64, 0x80 + n % 64]
  else [0xf0 + n / 262144, 0x80 + n / 4096 % 64, 0x80 + n / 64 % 64, 0x80 + n % 64]

/-- Python `s.encode("utf-8")` as a byte list. -/
def utf8Bytes (s : String) : List Nat := s.data.flatMap utf8Char

/-- Lowercase hex digit for a value below 16. -/
def hexChar (n : Nat) : Char :=
  if n < 10 then Char.ofNat (48 + n) else Char.ofNat (87 + n)

/-- Lowercase hex string of a byte list, as `.hexdigest()` returns. -/
def hexOfBytes (bs : List Nat) : String :=
  String.mk (bs.flatMap (fun b => [hexChar (b / 16 % 16), hexChar (b % 16)]))

/-! ## Webhook service (`src/services/webhook_service.py`) -/

/-- `WebhookEventType` (`email_filter.py` lines 10-13). -/
inductive WebhookEventType where
  | email_processed
  | filter_updated
  | all
deriving Repr, DecidableEq, BEq

/-- The string value of an event type (it is a `str` enum). -/
def eventTypeStr : WebhookEventType → String
  | .email_processed => "email_processed"
  | .filter_updated => "filter_updated"
  | .all => "all"

/-- `WebhookConfig` (`email_filter.py` lines 16-28). `created_at` is a wall
    clock timestamp irrelevant to delivery and is omitted. -/
structure WebhookConfig where
  id : String := ""
  url : String
  secret : Option String := none
  event_types : List WebhookEventType := [.all]
  is_active : Bool := true
  description : Option String := none
deriving Repr, DecidableEq

/-- `WebhookService.generate_signature` (`webhook_service.py` lines 35-51):
    empty signature for an empty secret, otherwise the hex HMAC-SHA256 of the
    payload keyed with the secret, both UTF-8 encoded. -/
def generate_signature (payload secret : String) : String :=
  if secret = "" then ""
  else hexOfBytes (hmacSha256 (utf8Bytes secret) (utf8Bytes payload))

/-- The serialized payload `json.dumps({"event": .., "timestamp": .., "data": ..})`
    (`webhook_service.py` lines 86-92) with the `data` member already
    serialized by the caller-side encoder. -/
def payloadJson (ev : WebhookEventType) (ts : Nat) (dataJson : String) : String :=
  "\x7b\"event\": \"" ++ eventTypeStr ev ++ "\", \"timestamp\": " ++ Nat.repr ts ++
    ", \"data\": " ++ dataJson ++ "\x7d"

/-- An outbound HTTP request as `notify` assembles it. -/
structure HttpRequest where
  url : String
  body : String
  headers : List (String × String)
deriving Repr, DecidableEq

/-- The request `notify` posts (`webhook_service.py` lines 85-108): the JSON
    payload as body, and the fixed content type, user agent and signature
    headers, the signature over exactly the payload string with
    `webhook.secret or ""`. -/
def buildRequest (wh : WebhookConfig) (ev : WebhookEventType) (ts : Nat)
    (dataJson : String) : HttpRequest :=
  let pj := payloadJson ev ts dataJson
  { url := wh.url
    body := pj
    headers := [("Content-Type", "application/json"),
                ("User-Agent", "MailScout-Webhook"),
                ("X-Webhook-Signature", generate_signature pj ((wh.secret).getD ""))] }

/-- The observable outcome of one HTTP attempt: a status code, or a raised
    transport exception. -/
inductive AttemptOutcome where
  | status (code : Nat)
  | exc
deriving Repr, DecidableEq

/-- Whether one attempt counts as success (`200 <= status < 300`,
    `webhook_service.py` line 110); an exception never does. -/
def attemptOk : AttemptOutcome → Bool
  | .status c => decide (200 ≤ c) && decide (c < 300)
  | .exc => false

/-- The retry loop of `notify` (`webhook_service.py` lines 101-132), with the
    environment's successive attempt outcomes supplied as a function of the
    attempt counter. Returns the delivered flag, the number of HTTP attempts
    made, and the list of backoff sleep durations in order. The fuel is the
    first argument of the recursion and is always given large enough for the
    bounded loop. -/
def attemptLoop (maxR d : Nat) (retry : Bool) (oc : Nat → AttemptOutcome) :
    Nat → Nat → Bool × Nat × List Nat
  | 0, _ => (false, 0, [])
  | fuel + 1, attempt =>
    if attempt ≤ (if retry then maxR else 0) then
      if attemptOk (oc attempt) then (true, 1, [])
      else if retry = false ∨ maxR ≤ attempt then (false, 1, [])
      else
        let rest := attemptLoop maxR d retry oc fuel (attempt + 1)
        let slp := if attempt + 1 ≤ maxR then [d * 2 ^ (attempt + 1 - 1)] else []
        (rest.1, rest.2.1 + 1, slp ++ rest.2.2)
    else (false, 0, [])

/-- The result of `notify`: the returned boolean, how many HTTP attempts were
    made, the backoff sleeps, and the request that was posted (absent when a
    precondition failed before any network activity). -/
structure NotifyResult where
  delivered : Bool
  attempts : Nat
  sleeps : List Nat
  request : Option HttpRequest
deriving Repr, DecidableEq

/-- `WebhookService.notify` (`webhook_service.py` lines 53-132) with the
    service's fixed `_retry_delay = 5` and `_max_retries = 3`: inactive
    webhooks and unsubscribed event types return `False` with no attempt;
    otherwise the signed request is posted under the retry loop. -/
def notify (wh : WebhookConfig) (ev : WebhookEventType) (retry : Bool)
    (oc : Nat → AttemptOutcome) (ts : Nat) (dataJson : String) : NotifyResult :=
  if wh.is_active = false then ⟨false, 0, [], none⟩
  else if wh.event_types.contains ev = false ∧ wh.event_types.contains .all = false then
    ⟨false, 0, [], none⟩
  else
    let req := buildRequest wh ev ts dataJson
    let r := attemptLoop 3 5 retry oc 6 0
    ⟨r.1, r.2.1, r.2.2, some req⟩

/-! ## HTML document model (for BeautifulSoup as `extract_from_table` uses it)

`extract_from_table` only uses: parsing, `select` with a `tag.class` selector,
a cell's `.text`, `find_next(tagname)`, `.parent` and `select_one`. The model
parses well-formed tag soup into a tree and implements those traversals over
the preorder element list; a parse failure plays the role of the caught
exception (the function degrades to `None`). -/

/-- An HTML node: an element with a tag name, its `class` attribute values and
    children, or a text node. -/
inductive HtmlNode where
  | tag (name : String) (classes : List String) (children : List HtmlNode) : HtmlNode
  | txt (s : String) : HtmlNode
deriving Repr

mutual

/-- The concatenated descendant text of a node (BeautifulSoup `.text`). -/
def textOfNode : HtmlNode → String
  | .txt s => s
  | .tag _ _ cs => textOfList cs

/-- Concatenated text of a node list. -/
def textOfList : List HtmlNode → String
  | [] => ""
  | c :: rest => textOfNode c ++ textOfList rest

end

/-- One element in the flattened document: its root path, tag name, classes
    and full descendant text. The flattening order is document (preorder)
    order. -/
structure Elem where
  path : List Nat
  tag : String
  classes : List String
  txt : String
deriving Repr, DecidableEq

mutual

/-- Flatten one node to its element list in preorder. -/
def flattenNode (path : List Nat) : HtmlNode → List Elem
  | .txt _ => []
  | .tag name cls children => ⟨path, name, cls, textOfList children⟩ :: flattenKids path 0 children

/-- Flatten a child list, numbering the children. -/
def flattenKids (path : List Nat) (i : Nat) : List HtmlNode → List Elem
  | [] => []
  | c :: rest => flattenNode (path ++ [i]) c ++ flattenKids path (i + 1) rest

end

/-- `p` is a (possibly equal) ancestor path of `q`. -/
def pathUnder : List Nat → List Nat → Bool
  | [], _ => true
  | _ :: _, [] => false
  | a :: as, b :: bs => a = b && pathUnder as bs

/-- Split a character list on a separator character (keeping empty parts,
    like Python `str.split(sep)`). -/
def splitOnChar (sep : Char) (cs : List Char) : List (List Char) :=
  cs.foldr
    (fun c acc =>
      match acc with
      | cur :: done => if c = sep then [] :: cur :: done else (c :: cur) :: done
      | [] => [[c]])
    [[]]

/-- Split a string on `.` (for CSS `tag.class` selectors). -/
def splitDot (s : String) : List String :=
  (splitOnChar '.' s.data).map String.mk

/-- The last `.`-separated component of a selector
    (`self.value_selector.split(".")[-1]`, `email_filter.py` line 92). -/
def lastDotComponent (s : String) : String :=
  (splitDot s).getLastD ""

/-- Whether an element matches a `tag.class...` CSS selector: the tag part
    must equal the element's tag (an empty tag part matches any element) and
    every class part must be among the element's classes. -/
def selMatch (sel : String) (e : Elem) : Bool :=
  match splitDot sel with
  | [] => false
  | t :: cls => (t = "" || t = e.tag) && cls.all (fun c => e.classes.contains c)

/-- Whitespace for the attribute scanner. -/
def isHtmlSpace (c : Char) : Bool :=
  c = ' ' || c = '\t' || c = '\n' || c = '\r'

/-- Scan a tag's attribute text up to `>`, returning the values of the
    `class` attribute (split on spaces) and the rest of the input. Only
    double-quoted values are supported; anything else fails the parse. -/
def parseAttrs : Nat → List Char → Option (List String × List Char)
  | 0, _ => none
  | fuel + 1, cs =>
    match cs with
    | [] => none
    | '>' :: rest => some ([], rest)
    | c :: rest =>
      if isHtmlSpace c then parseAttrs fuel rest
      else
        let nm := (c :: rest).takeWhile (fun d => d ≠ '=' && d ≠ '>' && !isHtmlSpace d)
        let r1 := (c :: rest).drop nm.length
        match r1 with
        | '=' :: '"' :: r2 =>
          let v := r2.takeWhile (fun d => d ≠ '"')
          match r2.drop v.length with
          | '"' :: r3 =>
            match parseAttrs fuel r3 with
            | none => none
            | some (cls, r4) =>
              if String.mk nm = "class" then
                some ((splitOnChar ' ' v).map String.mk ++ cls, r4)
              else some (cls, r4)
          | _ => none
        | _ =>
          match parseAttrs fuel r1 with
          | none => none
          | some (cls, r4) => some (cls, r4)

/-- Whether a character can appear in a tag name. -/
def isTagChar (c : Char) : Bool :=
  isAsciiLetterOrDigit c || c = '-' || c = '_'

/-- Parse sibling nodes until the input ends or a closing tag starts.
    Mismatched or unclosed tags fail the parse (the failure is caught by
    `extract_from_table`). -/
def parseNodes : Nat → List Char → Option (List HtmlNode × List Char)
  | 0, _ => none
  | fuel + 1, cs =>
    match cs with
    | [] => some ([], [])
    | '<' :: '/' :: _ => some ([], cs)
    | '<' :: rest =>
      let nm := rest.takeWhile isTagChar
      if nm.isEmpty then none
      else
        match parseAttrs fuel (rest.drop nm.length) with
        | none => none
        | some (cls, r2) =>
          match parseNodes fuel r2 with
          | none => none
          | some (children, r3) =>
            match r3 with
            | '<' :: '/' :: r4 =>
              let cn := r4.takeWhile isTagChar
              if cn = nm then
                match r4.drop cn.length with
                | '>' :: r5 =>
                  match parseNodes fuel r5 with
                  | none => none
                  | some (sib, r6) =>
                    some (.tag (String.mk nm) cls children :: sib, r6)
                | _ => none
              else none
            | _ => none
    | _ =>
      let t := cs.takeWhile (fun d => d ≠ '<')
      match parseNodes fuel (cs.drop t.length) with
      | none => none
      | some (sib, r2) => some (.txt (String.mk t) :: sib, r2)

/-- Parse a whole document; any leftover input fails. -/
def parseHtml (s : String) : Option (List HtmlNode) :=
  match parseNodes (s.length * 2 + 16) s.data with
  | some (ns, []) => some ns
  | _ => none

/-! ## `DataExtractionRule` (`src/models/email_filter.py` lines 51-154) -/

/-- `DataExtractionRule` (lines 51-61). The lazily compiled pattern
    `_compiled_pattern` is an explicit optional field, `None` at
    construction; construction performs no validation of the pattern. -/
structure DataExtractionRule where
  name : String
  pattern : String
  compiledPattern : Option CompiledPattern := none
  group_name : Option String := none
  content_type : String := "text"
  table_label : Option String := none
  label_selector : String := "td.ic-form-label"
  value_selector : String := "td.ic-form-data"
deriving Repr, DecidableEq

/-- Truthiness of an optional string (Python: `None` and `""` are falsy). -/
def optTruthy : Option String → Bool
  | none => false
  | some s => !(s = "")

/-- `DataExtractionRule.compile_pattern` (lines 63-66): compile and cache the
    pattern when no compiled form is cached yet; an invalid pattern raises
    `re.error`, modelled as the error case. -/
def compile_pattern (r : DataExtractionRule) : Except String DataExtractionRule :=
  match r.compiledPattern with
  | some _ => .ok r
  | none =>
    match reCompile r.pattern with
    | .ok cp => .ok { r with compiledPattern := some cp }
    | .error m => .error m

/-- The value-refinement step of `extract_from_table` (lines 101-109): the
    regex is applied only when `self.pattern` is truthy AND a compiled form is
    already cached (`if self.pattern and self._compiled_pattern:`); the first
    capture group is returned when the match has at least one group
    (`match.group(1)` may itself be `None` for a non-participating group),
    and otherwise the whole trimmed value is returned. -/
def refineValue (r : DataExtractionRule) (value : String) : Option String :=
  if r.pattern ≠ "" then
    match r.compiledPattern with
    | some cp =>
      match reSearch cp value with
      | some m =>
        if m.groups.length ≠ 0 then
          match m.groups with
          | g :: _ => g
          | [] => some value
        else some value
      | none => some value
    | none => some value
  else some value

/-- The value-cell resolution of `extract_from_table` (lines 91-95): the next
    element in document order with the tag equal to the last `.`-component of
    the value selector; if none, the first descendant of the label cell's
    parent matching the full value selector. `elems` is the document's
    preorder element list and `i` the label cell's index in it. -/
def findValueCell (r : DataExtractionRule) (elems : List Elem) (i : Nat)
    (cellPath : List Nat) : Option Elem :=
  let tagName := lastDotComponent r.value_selector
  match (elems.drop (i + 1)).find? (fun v => v.tag = tagName) with
  | some v => some v
  | none =>
    let pp := cellPath.dropLast
    elems.find? (fun v => pathUnder pp v.path && !(v.path = pp) && selMatch r.value_selector v)

/-- The label-cell loop of `extract_from_table` (lines 87-111): the first
    selected label cell whose text contains the target label
    (case-insensitively) and that resolves to a value cell produces the
    refined trimmed value; label cells without a value cell are skipped. -/
def scanCells (r : DataExtractionRule) (elems : List Elem) :
    List (Nat × Elem) → Option String
  | [] => none
  | (i, e) :: rest =>
    if pyIn (pyLower ((r.table_label).getD "")) (pyLower e.txt) then
      match findValueCell r elems i e.path with
      | some v => refineValue r (pyStrip v.txt)
      | none => scanCells r elems rest
    else scanCells r elems rest

/-- `DataExtractionRule.extract_from_table` (lines 68-114). Returns `None`
    for falsy HTML or label; a parse failure is caught and degrades to
    `None`. -/
def extract_from_table (r : DataExtractionRule) (html : String) : Option String :=
  if html = "" ∨ optTruthy r.table_label = false then none
  else
    match parseHtml html with
    | none => none
    | some nodes =>
      let elems := flattenKids [] 0 nodes
      scanCells r elems ((elems.enum).filter (fun p => selMatch r.label_selector p.2))

/-- Truthiness of the optional HTML argument (`None` or `""` are falsy). -/
def htmlTruthy : Option String → Bool
  | none => false
  | some s => !(s = "")

/-- The contents `extract_data` searches, in order (lines 136-141): the plain
    text for `text`/`both`, then the HTML (when truthy) for `html`/`both`. -/
def searchTextsOf (r : DataExtractionRule) (text : String) (html : Option String) :
    List String :=
  (if r.content_type = "text" ∨ r.content_type = "both" then [text] else []) ++
  (if (r.content_type = "html" ∨ r.content_type = "both") ∧ htmlTruthy html = true then
    [html.getD ""] else [])

/-- Key lookup in a named-group dict (present keys may hold `None`). -/
def gdictFind (l : List (String × Option String)) (k : String) : Option (Option String) :=
  match l with
  | [] => none
  | (k', v) :: rest => if k' = k then some v else gdictFind rest k

/-- The match-to-value resolution of `extract_data` (lines 146-152): the
    configured named group's value when the name is truthy and a key of the
    match's group dict; else the first capture group when the pattern has at
    least one group; else the whole match. -/
def resolveMatch (r : DataExtractionRule) (m : ReMatch) : Option String :=
  if optTruthy r.group_name = true ∧ (gdictFind m.gdict ((r.group_name).getD "")).isSome then
    (gdictFind m.gdict ((r.group_name).getD "")).getD none
  else
    match m.groups with
    | g :: _ => g
    | [] => some m.group0

/-- The search loop of `extract_data` (lines 144-154): the first content the
    compiled pattern matches determines the result. -/
def searchContents (r : DataExtractionRule) (cp : CompiledPattern) :
    List String → Option String
  | [] => none
  | c :: rest =>
    match reSearch cp c with
    | some m => resolveMatch r m
    | none => searchContents r cp rest

/-- `DataExtractionRule.extract_data` (lines 116-154): table rules with truthy
    HTML delegate to `extract_from_table` (before any compilation); otherwise
    the pattern is lazily compiled (an invalid pattern raises here) and the
    selected contents are searched in order. Returns the extracted value and
    the rule with its updated compiled-pattern cache. -/
def extract_data (r : DataExtractionRule) (text : String) (html : Option String) :
    Except String (Option String × DataExtractionRule) :=
  if r.content_type = "table" ∧ htmlTruthy html = true then
    .ok (extract_from_table r (html.getD ""), r)
  else
    match compile_pattern r with
    | .error m => .error m
    | .ok r' =>
      match r'.compiledPattern with
      | none => .ok (none, r')
      | some cp => .ok (searchContents r' cp (searchTextsOf r' text html), r')

/-! ## Extraction loop of `GmailService.process_filter`
    (`src/services/gmail_service.py` lines 236-243) -/

/-- The per-email extraction loop: each rule's extracted value is stored under
    the rule name only when truthy (neither `None` nor `""`); an exception
    from `extract_data` propagates. -/
def extractLoop (text html : String) :
    List DataExtractionRule → List (String × String) → Except String (List (String × String))
  | [], acc => .ok acc
  | r :: rest, acc =>
    match extract_data r text (some html) with
    | .error m => .error m
    | .ok (v, _) =>
      extractLoop text html rest
        (match v with
         | some s => if s = "" then acc else alSet acc r.name s
         | none => acc)

/-- The extracted-data mapping `process_filter` attaches to an email, given
    the plain text and HTML contents (each already defaulted to `""`). -/
def processFilterExtract (rules : List DataExtractionRule) (text html : String) :
    Except String (List (String × String)) :=
  extractLoop text html rules []

/-! ## `GenericTransactionAdapter` (`src/services/filter_service.py` lines 26-99) -/

/-- The fields whose `fallback_` variants are consolidated (lines 55-63). -/
def txFields : List String :=
  ["tipo_transaccion", "origen", "destino", "monto", "impuestos", "fecha_hora",
   "numero_referencia"]

/-- One step of the fallback consolidation (lines 64-70): promote
    `fallback_<field>` from the original input when the canonical key is
    absent there, then delete the fallback key from the result. -/
def consolidateField (input acc : List (String × String)) (field : String) :
    List (String × String) :=
  let fb := "fallback_" ++ field
  let acc1 :=
    if alContains input fb && !(alContains input field) then alSet acc field (alGetD input fb "")
    else acc
  if alContains acc1 fb then alErase acc1 fb else acc1

/-- `GenericTransactionAdapter`: the owner identifiers, upper-cased at
    construction (line 36). -/
structure GenericTransactionAdapter where
  owner_identifiers : List String
deriving Repr, DecidableEq

/-- The constructor `GenericTransactionAdapter(owner_identifiers)`. -/
def GenericTransactionAdapter.init (raw : List String) : GenericTransactionAdapter :=
  ⟨raw.map pyUpper⟩

/-- `GenericTransactionAdapter.process` (lines 38-91): consolidate fallback
    fields, return unchanged when `origen` or `monto` is missing, else add
    `transaction_type` determined by owner-identifier containment in the
    upper-cased `origen` (outgoing) or `destino` (incoming), default
    `unknown`. -/
def GenericTransactionAdapter.process (a : GenericTransactionAdapter)
    (extracted : List (String × String)) : List (String × String) :=
  let result := txFields.foldl (consolidateField extracted) extracted
  if alContains result "origen" = false ∨ alContains result "monto" = false then result
  else
    let origen := pyUpper (alGetD result "origen" "")
    let destino := pyUpper (alGetD result "destino" "")
    let t :=
      if a.owner_identifiers.any (fun o => pyIn o origen) then "outgoing"
      else if a.owner_identifiers.any (fun o => pyIn o destino) then "incoming"
      else "unknown"
    alSet result "transaction_type" t

/-! ## Concrete instances used to evaluate the claims -/

/-- The compiled form of a pattern known to be valid (used to name compiled
    rule states concretely). -/
def forceCompiled (p : String) : CompiledPattern :=
  (reCompile p).toOption.getD ⟨.eps, 0, []⟩

/-- An HTML table pairing a `td.ic-form-label` cell `"Monto: "` with a
    `td.ic-form-data` cell `"DOP 10,000.00 "`, shaped like the transaction
    mail in `tests/test_email_filter.py`. -/
def montoTableHtml : String :=
  "<table cellpadding=\"0\" cellspacing=\"0\" style=\"width: 100%\"><tbody><tr><td class=\"ic-form-label\" style=\"width: 20%\">Monto: </td><td class=\"ic-form-data\">DOP 10,000.00 </td></tr></tbody></table>"

/-- A freshly constructed table rule for the amount: label `"Monto"`, pattern
    `DOP\s+([\d,.]+)`, no compiled pattern cached yet. -/
def montoRule : DataExtractionRule :=
  { name := "monto", pattern := "DOP\\s+([\\d,.]+)", content_type := "table",
    table_label := some "Monto" }

/-- The same rule after `compile_pattern` has cached the compiled pattern. -/
def montoRuleCompiled : DataExtractionRule :=
  { montoRule with compiledPattern := some (forceCompiled montoRule.pattern) }

/-- A rule whose regex pattern `(` is invalid. Its construction is just this
    definition: the model constructor (like the pydantic constructor in the
    source, which validates field types but never compiles the pattern)
    cannot fail on an invalid pattern. -/
def invalidPatternRule : DataExtractionRule :=
  { name := "x", pattern := "(" }

/-- The order-number rule of the spec's concrete scenario. -/
def orderRule : DataExtractionRule :=
  { name := "order_number", pattern := "Order #: (\\d+)" }

/-- The order-number rule with its compiled pattern cached. -/
def orderRuleCompiled : DataExtractionRule :=
  { orderRule with compiledPattern := some (forceCompiled orderRule.pattern) }

/-- The named-group rule of the spec's concrete scenario. -/
def totalRule : DataExtractionRule :=
  { name := "total_amount", pattern := "Total: \\$(?P<amount>\\d+\\.\\d+)",
    group_name := some "amount" }

/-- The named-group rule with its compiled pattern cached. -/
def totalRuleCompiled : DataExtractionRule :=
  { totalRule with compiledPattern := some (forceCompiled totalRule.pattern) }

/-- A `content_type = "both"` rule (from `tests/test_email_filter.py`). -/
def bothRule : DataExtractionRule :=
  { name := "amount", pattern := "Amount: \\$([\\d,.]+)", content_type := "both" }

/-- The `both` rule with its compiled pattern cached. -/
def bothRuleCompiled : DataExtractionRule :=
  { bothRule with compiledPattern := some (forceCompiled bothRule.pattern) }

/-- An input mapping whose only key is a fallback key; `origen` and `monto`
    are entirely absent, in canonical and in fallback form. -/
def fbOnlyInput : List (String × String) := [("fallback_destino", "X")]

/-- The transaction mapping of the spec's concrete adapter scenario. -/
def outgoingInput : List (String × String) :=
  [("origen", "STARLIN FRANCISCO GIL CRUZ, CuentaAhorro DOP ** - 0129"),
   ("destino", "SRA ROSA A FELIZ, CuentaAhorro DOP ** - 5770"),
   ("monto", "10,000.00")]

/-- The same scenario with origin and destination swapped. -/
def incomingInput : List (String × String) :=
  [("origen", "SRA ROSA A FELIZ, CuentaAhorro DOP ** - 5770"),
   ("destino", "STARLIN FRANCISCO GIL CRUZ, CuentaAhorro DOP ** - 0129"),
   ("monto", "10,000.00")]

/-- The same scenario with neither owner identifier present. -/
def neitherInput : List (String × String) :=
  [("origen", "JUAN PEREZ"), ("destino", "SRA ROSA A FELIZ"), ("monto", "10,000.00")]

/-- The same scenario with the `origen` key entirely absent. -/
def absentOriginInput : List (String × String) :=
  [("destino", "SRA ROSA A FELIZ"), ("monto", "10,000.00")]

/-- An active webhook subscribed to `email_processed`, with a secret. -/
def sampleWebhook : WebhookConfig :=
  { id := "wh-1", url := "https://example.com/webhook", secret := some "test_secret",
    event_types := [.email_processed], is_active := true }

/-- The sample webhook, deactivated. -/
def inactiveWebhook : WebhookConfig :=
  { sampleWebhook with is_active := false }

/-- No fallback-prefixed key of any consolidated field is present. -/
def noFallbackKeys (input : List (String × String)) : Prop :=
  ∀ f ∈ txFields, alContains input ("fallback_" ++ f) = false

instance (input : List (String × String)) : Decidable (noFallbackKeys input) := by
  unfold noFallbackKeys
  infer_instance


/-! ## Helper lemmas -/

theorem compile_pattern_ok_shape (r r' : DataExtractionRule)
    (h : compile_pattern r = .ok r') :
    r'.content_type = r.content_type ∧ r'.group_name = r.group_name := by
  unfold compile_pattern at h
  cases hcp : r.compiledPattern with
  | some cp =>
    rw [hcp] at h
    simp at h
    rw [← h]
    exact ⟨rfl, rfl⟩
  | none =>
    rw [hcp] at h
    cases hrc : reCompile r.pattern with
    | ok cp =>
      rw [hrc] at h
      simp at h
      rw [← h]
      exact ⟨rfl, rfl⟩
    | error m =>
      rw [hrc] at h
      simp at h

theorem extract_data_ok (r r' : DataExtractionRule) (cp : CompiledPattern)
    (text : String) (html : Option String)
    (hnt : ¬(r.content_type = "table" ∧ htmlTruthy html = true))
    (hc : compile_pattern r = .ok r') (hcp : r'.compiledPattern = some cp) :
    extract_data r text html =
      .ok (searchContents r' cp (searchTextsOf r' text html), r') := by
  unfold extract_data
  rw [if_neg hnt]
  simp only [hc, hcp]

theorem searchContents_append_none (r : DataExtractionRule) (cp : CompiledPattern)
    (pre l : List String) (h : ∀ x ∈ pre, reSearch cp x = none) :
    searchContents r cp (pre ++ l) = searchContents r cp l := by
  induction pre with
  | nil => rfl
  | cons a as ih =>
    have ha : reSearch cp a = none := h a (by simp)
    have has : ∀ x ∈ as, reSearch cp x = none := fun x hx => h x (by simp [hx])
    simp [searchContents, ha, ih has]

theorem searchContents_all_none (r : DataExtractionRule) (cp : CompiledPattern)
    (l : List String) (h : ∀ x ∈ l, reSearch cp x = none) :
    searchContents r cp l = none := by
  induction l with
  | nil => rfl
  | cons a as ih =>
    have ha : reSearch cp a = none := h a (by simp)
    have has : ∀ x ∈ as, reSearch cp x = none := fun x hx => h x (by simp [hx])
    simp [searchContents, ha, ih has]

theorem alGet?_cons_ne (k' v k : String) (l : List (String × String)) (h : ¬(k' = k)) :
    alGet? ((k', v) :: l) k = alGet? l k := by
  simp [alGet?, h]

theorem alGet?_cons_eq (k v : String) (l : List (String × String)) :
    alGet? ((k, v) :: l) k = some v := by
  simp [alGet?]

theorem consolidateField_self (input : List (String × String)) (f : String)
    (h : alContains input ("fallback_" ++ f) = false) :
    consolidateField input input f = input := by
  simp [consolidateField, h]

theorem foldConsolidate_id (input : List (String × String)) :
    ∀ fs : List String, (∀ f ∈ fs, alContains input ("fallback_" ++ f) = false) →
    fs.foldl (consolidateField input) input = input := by
  intro fs
  induction fs with
  | nil => intro _; rfl
  | cons f rest ih =>
    intro h
    have h1 : alContains input ("fallback_" ++ f) = false := h f (by simp)
    have h2 : ∀ g ∈ rest, alContains input ("fallback_" ++ g) = false :=
      fun g hg => h g (by simp [hg])
    rw [List.foldl_cons, consolidateField_self input f h1, ih h2]

theorem alSet_mem_cases (k v : String) :
    ∀ (l : List (String × String)) (q : String × String), q ∈ alSet l k v →
      q = (k, v) ∨ q ∈ l := by
  intro l
  induction l with
  | nil =>
    intro q hq
    simp [alSet] at hq
    left
    exact hq
  | cons p rest ih =>
    intro q hq
    rcases p with ⟨k', v'⟩
    by_cases hk : k' = k
    · rw [show alSet ((k', v') :: rest) k v = (k, v) :: rest by simp [alSet, hk]] at hq
      rcases List.mem_cons.mp hq with h | h
      · left; exact h
      · right; exact List.mem_cons_of_mem _ h
    · rw [show alSet ((k', v') :: rest) k v = (k', v') :: alSet rest k v by
        simp [alSet, hk]] at hq
      rcases List.mem_cons.mp hq with h | h
      · right; rw [h]; exact List.mem_cons_self _ _
      · rcases ih q h with h' | h'
        · left; exact h'
        · right; exact List.mem_cons_of_mem _ h'

theorem extractLoop_inv (text html : String) :
    ∀ (rules : List DataExtractionRule) (acc res : List (String × String)),
      extractLoop text html rules acc = .ok res →
      (∀ p ∈ acc, p.2 ≠ "") →
      (∀ p ∈ res, p.2 ≠ "") ∧
      (∀ p ∈ res, p ∈ acc ∨ ∃ r ∈ rules, p.1 = r.name) := by
  intro rules
  induction rules with
  | nil =>
    intro acc res h hacc
    simp [extractLoop] at h
    rw [← h]
    exact ⟨hacc, fun p hp => Or.inl hp⟩
  | cons r rest ih =>
    intro acc res h hacc
    unfold extractLoop at h
    cases he : extract_data r text (some html) with
    | error m => rw [he] at h; simp at h
    | ok pr =>
      rw [he] at h
      simp only [] at h
      rcases pr with ⟨v, r2⟩
      cases v with
      | none =>
        simp only [] at h
        have := ih acc res h hacc
        exact ⟨this.1, fun p hp => by
          rcases this.2 p hp with h' | ⟨rr, hrr, hname⟩
          · exact Or.inl h'
          · exact Or.inr ⟨rr, List.mem_cons_of_mem _ hrr, hname⟩⟩
      | some s =>
        by_cases hs : s = ""
        · simp only [hs, if_pos rfl] at h
          have := ih acc res h hacc
          exact ⟨this.1, fun p hp => by
            rcases this.2 p hp with h' | ⟨rr, hrr, hname⟩
            · exact Or.inl h'
            · exact Or.inr ⟨rr, List.mem_cons_of_mem _ hrr, hname⟩⟩
        · simp only [if_neg hs] at h
          have hacc' : ∀ p ∈ alSet acc r.name s, p.2 ≠ "" := by
            intro p hp
            rcases alSet_mem_cases r.name s acc p hp with h' | h'
            · rw [h']; exact hs
            · exact hacc p h'
          have := ih (alSet acc r.name s) res h hacc'
          refine ⟨this.1, fun p hp => ?_⟩
          rcases this.2 p hp with h' | ⟨rr, hrr, hname⟩
          · rcases alSet_mem_cases r.name s acc p h' with h'' | h''
            · exact Or.inr ⟨r, List.mem_cons_self _ _, by rw [h'']⟩
            · exact Or.inl h''
          · exact Or.inr ⟨rr, List.mem_cons_of_mem _ hrr, hname⟩

/-! ## Claim theorems -/

/-- C1: contrary to the claim, `extract_from_table` does not apply the rule's
    pattern to the value cell's trimmed text on a freshly constructed rule:
    the guard `if self.pattern and self._compiled_pattern:` requires an
    already cached compiled pattern, and the table path of `extract_data`
    never compiles it, so the rule with label `"Monto"` and pattern
    `DOP\s+([\d,.]+)` returns the full trimmed value `"DOP 10,000.00"`
    instead of the first capture group `"10,000.00"`. -/
theorem c1_table_pattern_skipped :
    extract_data montoRule "" (some montoTableHtml) =
      .ok (some "DOP 10,000.00", montoRule) ∧
    extract_from_table montoRule montoTableHtml = some "DOP 10,000.00" ∧
    (some "DOP 10,000.00" : Option String) ≠ some "10,000.00" := by
  refine ⟨by decide, by decide, by decide⟩

/-- C9: contrary to the claim, re-running `extract_from_table` with unchanged
    HTML and label does not yield the same result when `compile_pattern` runs
    between the runs: on the fresh `"Monto"` rule the first run returns the
    full value `"DOP 10,000.00"`, and after `compile_pattern` caches the
    compiled pattern the same call returns the refined `"10,000.00"`. -/
theorem c9_table_extraction_not_idempotent :
    extract_from_table montoRule montoTableHtml = some "DOP 10,000.00" ∧
    compile_pattern montoRule = .ok montoRuleCompiled ∧
    extract_from_table montoRuleCompiled montoTableHtml = some "10,000.00" ∧
    extract_from_table montoRule montoTableHtml ≠
      extract_from_table montoRuleCompiled montoTableHtml := by
  refine ⟨by decide, by decide, by decide, by decide⟩

/-- C2 counterexample: the pattern `(` is invalid (`reCompile` rejects it,
    as `re.compile` raises `re.error`), yet the rule value
    `invalidPatternRule` carrying it exists — construction, which performs no
    pattern validation, succeeded — and the error is first raised by a later
    `extract_data` call, refuting "surfaced to the caller immediately at
    construction time" and "never first discovered only during a later
    extraction call". -/
theorem c2_counterexample :
    (reCompile invalidPatternRule.pattern).isOk = false ∧
    invalidPatternRule.compiledPattern = none ∧
    (extract_data invalidPatternRule "abc" none).isOk = false := by
  refine ⟨by decide, by decide, by decide⟩

/-- C2 (amended): constructing an extraction rule with an invalid regex
    pattern succeeds (construction never compiles the pattern); the invalid
    pattern first surfaces as an error at the first extraction call that
    compiles it, i.e. any `extract_data` call that does not take the
    table-delegation path. -/
theorem c2_invalid_pattern_errors_at_extraction
    (r : DataExtractionRule) (text : String) (html : Option String)
    (hfresh : r.compiledPattern = none)
    (hbad : (reCompile r.pattern).isOk = false)
    (hnt : ¬(r.content_type = "table" ∧ htmlTruthy html = true)) :
    (extract_data r text html).isOk = false := by
  unfold extract_data
  rw [if_neg hnt]
  unfold compile_pattern
  rw [hfresh]
  cases hrc : reCompile r.pattern with
  | ok cp => rw [hrc] at hbad; simp [Except.isOk, Except.toBool] at hbad
  | error m => simp [Except.isOk, Except.toBool]

/-- C2 witness: the amended statement evaluated on the invalid pattern `(`. -/
theorem c2_invalid_pattern_errors_at_extraction_witness :
    (extract_data invalidPatternRule "abc" none).isOk = false :=
  c2_invalid_pattern_errors_at_extraction invalidPatternRule "abc" none
    (by decide) (by decide) (by decide)

/-- C4 counterexample: on the input mapping `[("fallback_destino", "X")]`,
    whose `origen` and `monto` fields are entirely absent (in canonical and
    fallback form), `process` does not return the input unchanged: the
    fallback consolidation rewrites the mapping to `[("destino", "X")]`
    (the `transaction_type` key is indeed not added). -/
theorem c4_counterexample :
    alContains fbOnlyInput "origen" = false ∧
    alContains fbOnlyInput "monto" = false ∧
    alContains fbOnlyInput "fallback_origen" = false ∧
    alContains fbOnlyInput "fallback_monto" = false ∧
    (GenericTransactionAdapter.init ["STARLIN"]).process fbOnlyInput = [("destino", "X")] ∧
    (GenericTransactionAdapter.init ["STARLIN"]).process fbOnlyInput ≠ fbOnlyInput := by
  refine ⟨by decide, by decide, by decide, by decide, by decide, by decide⟩

/-- C4 (amended): for every input mapping containing no `fallback_`-prefixed
    consolidation key: when `origen` or `monto` is absent the input is
    returned unchanged with no `transaction_type` key; when both are present,
    the result is the input plus `transaction_type` set to `"unknown"` when no
    upper-cased owner identifier is contained in the upper-cased origin or
    destination, `"outgoing"` when one is contained in the origin, and
    `"incoming"` when none is in the origin but one is in the destination
    (the case-insensitive containment of the source: identifiers are
    upper-cased at construction and compared against upper-cased fields). -/
theorem c4_transaction_direction :
    (∀ (raw : List String) (input : List (String × String)), noFallbackKeys input →
      (alContains input "origen" = false ∨ alContains input "monto" = false) →
      (GenericTransactionAdapter.init raw).process input = input) ∧
    (∀ (raw : List String) (input : List (String × String)), noFallbackKeys input →
      alContains input "origen" = true → alContains input "monto" = true →
      (raw.map pyUpper).any (fun o => pyIn o (pyUpper (alGetD input "origen" ""))) = false →
      (raw.map pyUpper).any (fun o => pyIn o (pyUpper (alGetD input "destino" ""))) = false →
      (GenericTransactionAdapter.init raw).process input =
        alSet input "transaction_type" "unknown") ∧
    (∀ (raw : List String) (input : List (String × String)), noFallbackKeys input →
      alContains input "origen" = true → alContains input "monto" = true →
      (raw.map pyUpper).any (fun o => pyIn o (pyUpper (alGetD input "origen" ""))) = true →
      (GenericTransactionAdapter.init raw).process input =
        alSet input "transaction_type" "outgoing") ∧
    (∀ (raw : List String) (input : List (String × String)), noFallbackKeys input →
      alContains input "origen" = true → alContains input "monto" = true →
      (raw.map pyUpper).any (fun o => pyIn o (pyUpper (alGetD input "origen" ""))) = false →
      (raw.map pyUpper).any (fun o => pyIn o (pyUpper (alGetD input "destino" ""))) = true →
      (GenericTransactionAdapter.init raw).process input =
        alSet input "transaction_type" "incoming") := by
  have hfold : ∀ (input : List (String × String)), noFallbackKeys input →
      txFields.foldl (consolidateField input) input = input :=
    fun input hnf => foldConsolidate_id input txFields hnf
  refine ⟨?_, ?_, ?_, ?_⟩
  · intro raw input hnf ho
    unfold GenericTransactionAdapter.process
    rw [hfold input hnf, if_pos ho]
  · intro raw input hnf ho hm hor hde
    unfold GenericTransactionAdapter.process
    rw [hfold input hnf]
    rw [if_neg (by simp [ho, hm])]
    simp only [GenericTransactionAdapter.init] at hor hde ⊢
    simp [hor, hde]
  · intro raw input hnf ho hm hor
    unfold GenericTransactionAdapter.process
    rw [hfold input hnf]
    rw [if_neg (by simp [ho, hm])]
    simp only [GenericTransactionAdapter.init] at hor ⊢
    simp [hor]
  · intro raw input hnf ho hm hor hde
    unfold GenericTransactionAdapter.process
    rw [hfold input hnf]
    rw [if_neg (by simp [ho, hm])]
    simp only [GenericTransactionAdapter.init] at hor hde ⊢
    simp [hor, hde]

/-- C4 witness: the amended statement on the spec's concrete scenario with
    owner identifiers `["STARLIN", "GIL CRUZ"]`. -/
theorem c4_transaction_direction_witness :
    (GenericTransactionAdapter.init ["STARLIN", "GIL CRUZ"]).process outgoingInput =
      alSet outgoingInput "transaction_type" "outgoing" ∧
    (GenericTransactionAdapter.init ["STARLIN", "GIL CRUZ"]).process incomingInput =
      alSet incomingInput "transaction_type" "incoming" ∧
    (GenericTransactionAdapter.init ["STARLIN", "GIL CRUZ"]).process neitherInput =
      alSet neitherInput "transaction_type" "unknown" ∧
    (GenericTransactionAdapter.init ["STARLIN", "GIL CRUZ"]).process absentOriginInput =
      absentOriginInput :=
  ⟨c4_transaction_direction.2.2.1 ["STARLIN", "GIL CRUZ"] outgoingInput
      (by decide) (by decide) (by decide) (by decide),
   c4_transaction_direction.2.2.2 ["STARLIN", "GIL CRUZ"] incomingInput
      (by decide) (by decide) (by decide) (by decide) (by decide),
   c4_transaction_direction.2.1 ["STARLIN", "GIL CRUZ"] neitherInput
      (by decide) (by decide) (by decide) (by decide) (by decide),
   c4_transaction_direction.1 ["STARLIN", "GIL CRUZ"] absentOriginInput
      (by decide) (Or.inl (by decide))⟩

/-- C5: for a `content_type = "both"` rule, `extract_data` searches the plain
    text first: whenever the compiled pattern matches the plain text, the
    result is the resolution of that plain-text match for every HTML content
    whatsoever; and when the plain text has no match, the result is exactly
    the (resolved) outcome of searching the truthy HTML content. -/
theorem c5_text_precedence :
    (∀ (r r' : DataExtractionRule) (cp : CompiledPattern) (text : String) (m : ReMatch),
      r.content_type = "both" →
      compile_pattern r = .ok r' → r'.compiledPattern = some cp →
      reSearch cp text = some m →
      ∀ html : Option String,
        extract_data r text html = .ok (resolveMatch r' m, r')) ∧
    (∀ (r r' : DataExtractionRule) (cp : CompiledPattern) (text html : String),
      r.content_type = "both" →
      compile_pattern r = .ok r' → r'.compiledPattern = some cp →
      reSearch cp text = none → htmlTruthy (some html) = true →
      extract_data r text (some html) =
        .ok ((match reSearch cp html with
              | some mh => resolveMatch r' mh
              | none => none), r')) := by
  constructor
  · intro r r' cp text m hct hc hcp hm html
    have hnt : ¬(r.content_type = "table" ∧ htmlTruthy html = true) := by
      intro hcontra
      rw [hct] at hcontra
      exact absurd hcontra.1 (by decide)
    rw [extract_data_ok r r' cp text html hnt hc hcp]
    have hct' : r'.content_type = "both" := by
      rw [(compile_pattern_ok_shape r r' hc).1, hct]
    simp [searchTextsOf, hct', searchContents, hm]
  · intro r r' cp text html hct hc hcp hmn hh
    have hnt : ¬(r.content_type = "table" ∧ htmlTruthy (some html) = true) := by
      intro hcontra
      rw [hct] at hcontra
      exact absurd hcontra.1 (by decide)
    rw [extract_data_ok r r' cp text (some html) hnt hc hcp]
    have hct' : r'.content_type = "both" := by
      rw [(compile_pattern_ok_shape r r' hc).1, hct]
    cases hr : reSearch cp html with
    | some mh => simp [searchTextsOf, hct', searchContents, hmn, hr, hh]
    | none => simp [searchTextsOf, hct', searchContents, hmn, hr, hh]

/-- C5 witness: the `both` rule of the repository's test, over a plain text
    and an HTML that both match with different values; the plain-text value
    wins. -/
theorem c5_text_precedence_witness :
    extract_data bothRule "Transaction details:\nAmount: $1,234.56\nDate: 2025-03-29"
      (some "<div>Transaction details:<br>Amount: $9,876.54<br>Date: 2025-03-29</div>") =
      .ok (some "1,234.56", bothRuleCompiled) :=
  c5_text_precedence.1 bothRule bothRuleCompiled (forceCompiled bothRule.pattern)
    "Transaction details:\nAmount: $1,234.56\nDate: 2025-03-29"
    ⟨"Amount: $1,234.56", [some "1,234.56"], []⟩
    (by decide) (by decide) (by decide) (by decide)
    (some "<div>Transaction details:<br>Amount: $9,876.54<br>Date: 2025-03-29</div>")

/-- C6: for every non-table extraction, `extract_data` resolves the first
    match among the searched contents uniformly through `resolveMatch` (the
    configured named group's value when present in the match's group dict,
    else the first capture group when the pattern has groups, else the whole
    match), and returns `none` when no searched content matches. -/
theorem c6_match_resolution :
    (∀ (r r' : DataExtractionRule) (cp : CompiledPattern) (text : String)
       (html : Option String) (pre post : List String) (c : String) (m : ReMatch),
      ¬(r.content_type = "table" ∧ htmlTruthy html = true) →
      compile_pattern r = .ok r' → r'.compiledPattern = some cp →
      searchTextsOf r' text html = pre ++ c :: post →
      (∀ x ∈ pre, reSearch cp x = none) →
      reSearch cp c = some m →
      extract_data r text html = .ok (resolveMatch r' m, r')) ∧
    (∀ (r r' : DataExtractionRule) (cp : CompiledPattern) (text : String)
       (html : Option String),
      ¬(r.content_type = "table" ∧ htmlTruthy html = true) →
      compile_pattern r = .ok r' → r'.compiledPattern = some cp →
      (∀ x ∈ searchTextsOf r' text html, reSearch cp x = none) →
      extract_data r text html = .ok (none, r')) := by
  constructor
  · intro r r' cp text html pre post c m hnt hc hcp hsplit hpre hm
    rw [extract_data_ok r r' cp text html hnt hc hcp, hsplit,
      searchContents_append_none r' cp pre _ hpre]
    simp [searchContents, hm]
  · intro r r' cp text html hnt hc hcp hall
    rw [extract_data_ok r r' cp text html hnt hc hcp,
      searchContents_all_none r' cp _ hall]

/-- C6 witness: the spec's two concrete scenarios. `Order #: (\d+)` over
    `"Order #: 12345 will ship"` extracts `"12345"` (first capture group);
    `Total: \$(?P<amount>\d+\.\d+)` with group name `amount` over
    `"Total: $123.45"` extracts `"123.45"` (named group). -/
theorem c6_match_resolution_witness :
    extract_data orderRule "Order #: 12345 will ship" none =
      .ok (some "12345", orderRuleCompiled) ∧
    extract_data totalRule "Total: $123.45" none =
      .ok (some "123.45", totalRuleCompiled) :=
  ⟨c6_match_resolution.1 orderRule orderRuleCompiled (forceCompiled orderRule.pattern)
      "Order #: 12345 will ship" none [] [] "Order #: 12345 will ship"
      ⟨"Order #: 12345", [some "12345"], []⟩
      (by decide) (by decide) (by decide) (by decide) (by decide) (by decide),
   c6_match_resolution.1 totalRule totalRuleCompiled (forceCompiled totalRule.pattern)
      "Total: $123.45" none [] [] "Total: $123.45"
      ⟨"Total: $123.45", [some "123.45"], [("amount", some "123.45")]⟩
      (by decide) (by decide) (by decide) (by decide) (by decide) (by decide)⟩

/-- C7: whenever the preconditions pass, `notify` posts exactly
    `buildRequest`, whose body is the serialized `{event, timestamp, data}`
    payload string and whose `X-Webhook-Signature` header is
    `generate_signature` recomputed over exactly that body and the
    subscription's secret (`webhook.secret or ""`); with no secret configured
    the signature is the empty string. -/
theorem c7_signature_header :
    ∀ (wh : WebhookConfig) (ev : WebhookEventType) (retry : Bool)
      (oc : Nat → AttemptOutcome) (ts : Nat) (dataJson : String),
      wh.is_active = true →
      (wh.event_types.contains ev = true ∨
        wh.event_types.contains WebhookEventType.all = true) →
      (notify wh ev retry oc ts dataJson).request =
        some (buildRequest wh ev ts dataJson) ∧
      (buildRequest wh ev ts dataJson).body = payloadJson ev ts dataJson ∧
      alGet? (buildRequest wh ev ts dataJson).headers "X-Webhook-Signature" =
        some (generate_signature (buildRequest wh ev ts dataJson).body
          ((wh.secret).getD "")) ∧
      (wh.secret = none →
        alGet? (buildRequest wh ev ts dataJson).headers "X-Webhook-Signature" =
          some "") := by
  intro wh ev retry oc ts dj ha hsub
  have hhd : (buildRequest wh ev ts dj).headers =
      [("Content-Type", "application/json"), ("User-Agent", "MailScout-Webhook"),
       ("X-Webhook-Signature",
         generate_signature (payloadJson ev ts dj) ((wh.secret).getD ""))] := rfl
  have hdr : alGet? (buildRequest wh ev ts dj).headers "X-Webhook-Signature" =
      some (generate_signature (payloadJson ev ts dj) ((wh.secret).getD "")) := by
    rw [hhd, alGet?_cons_ne _ _ _ _ (by decide), alGet?_cons_ne _ _ _ _ (by decide),
      alGet?_cons_eq]
  refine ⟨?_, rfl, hdr, ?_⟩
  · unfold notify
    rw [if_neg (by simp [ha]), if_neg (by rcases hsub with h | h <;> simp [h])]
  · intro hs
    rw [hdr, hs]
    simp [generate_signature]

/-- C7 witness: the signature plumbing evaluated on a concrete active
    subscription with a secret. -/
theorem c7_signature_header_witness :
    (notify sampleWebhook .email_processed true (fun _ => .status 200) 1234 "\"d\"").request =
      some (buildRequest sampleWebhook .email_processed 1234 "\"d\"") ∧
    alGet? (buildRequest sampleWebhook .email_processed 1234 "\"d\"").headers
        "X-Webhook-Signature" =
      some (generate_signature
        (buildRequest sampleWebhook .email_processed 1234 "\"d\"").body
        ((sampleWebhook.secret).getD "")) :=
  ⟨(c7_signature_header sampleWebhook .email_processed true (fun _ => .status 200) 1234 "\"d\""
      (by decide) (Or.inl (by decide))).1,
   (c7_signature_header sampleWebhook .email_processed true (fun _ => .status 200) 1234 "\"d\""
      (by decide) (Or.inl (by decide))).2.2.1⟩

/-- C8: an inactive subscription, or one whose subscribed set contains
    neither the delivered event type nor the wildcard `all`, makes `notify`
    return `False` immediately: zero HTTP attempts, no sleeps, no request. -/
theorem c8_precondition_no_attempt :
    ∀ (wh : WebhookConfig) (ev : WebhookEventType) (retry : Bool)
      (oc : Nat → AttemptOutcome) (ts : Nat) (dataJson : String),
      (wh.is_active = false ∨
        (wh.event_types.contains ev = false ∧
         wh.event_types.contains WebhookEventType.all = false)) →
      notify wh ev retry oc ts dataJson = ⟨false, 0, [], none⟩ := by
  intro wh ev retry oc ts dj h
  rcases h with ha | ⟨h1, h2⟩
  · simp [notify, ha]
  · cases hact : wh.is_active with
    | false => simp [notify, hact]
    | true => simp [notify, hact, h1, h2]

/-- C8 witness: an inactive subscription, and an active one subscribed only
    to `email_processed` receiving `filter_updated`. -/
theorem c8_precondition_no_attempt_witness :
    notify inactiveWebhook .email_processed true (fun _ => .status 200) 0 "1" =
      ⟨false, 0, [], none⟩ ∧
    notify sampleWebhook .filter_updated true (fun _ => .status 200) 0 "1" =
      ⟨false, 0, [], none⟩ :=
  ⟨c8_precondition_no_attempt inactiveWebhook .email_processed true (fun _ => .status 200) 0 "1"
      (Or.inl (by decide)),
   c8_precondition_no_attempt sampleWebhook .filter_updated true (fun _ => .status 200) 0 "1"
      (Or.inr ⟨by decide, by decide⟩)⟩

theorem attemptLoop_false_eq (oc : Nat → AttemptOutcome) :
    attemptLoop 3 5 false oc 6 0 = (attemptOk (oc 0), 1, []) := by
  cases h0 : attemptOk (oc 0) <;> simp [attemptLoop, h0]

theorem attemptLoop_true_shape (oc : Nat → AttemptOutcome) :
    ∃ n : Nat, 1 ≤ n ∧ n ≤ 4 ∧
      attemptLoop 3 5 true oc 6 0 =
        (attemptOk (oc (n - 1)), n, (List.range (n - 1)).map (fun i => 5 * 2 ^ i)) ∧
      (∀ k, k + 1 < n → attemptOk (oc k) = false) := by
  cases h0 : attemptOk (oc 0) with
  | true =>
    exact ⟨1, by omega, by omega, by simp [attemptLoop, h0],
      fun k hk => absurd hk (by omega)⟩
  | false =>
    cases h1 : attemptOk (oc 1) with
    | true =>
      refine ⟨2, by omega, by omega,
        by simp [attemptLoop, h0, h1, List.range_succ], ?_⟩
      intro k hk
      rcases k with _ | k
      · exact h0
      · exact absurd hk (by omega)
    | false =>
      cases h2 : attemptOk (oc 2) with
      | true =>
        refine ⟨3, by omega, by omega,
          by simp [attemptLoop, h0, h1, h2, List.range_succ], ?_⟩
        intro k hk
        rcases k with _ | _ | k
        · exact h0
        · exact h1
        · exact absurd hk (by omega)
      | false =>
        cases h3 : attemptOk (oc 3) with
        | true =>
          refine ⟨4, by omega, by omega,
            by simp [attemptLoop, h0, h1, h2, h3, List.range_succ], ?_⟩
          intro k hk
          rcases k with _ | _ | _ | k
          · exact h0
          · exact h1
          · exact h2
          · exact absurd hk (by omega)
        | false =>
          refine ⟨4, by omega, by omega,
            by simp [attemptLoop, h0, h1, h2, h3, List.range_succ], ?_⟩
          intro k hk
          rcases k with _ | _ | _ | k
          · exact h0
          · exact h1
          · exact h2
          · exact absurd hk (by omega)

/-- C3: with the preconditions passing and retry enabled, `notify` makes
    between 1 and 4 HTTP attempts (the fixed `_max_retries = 3` plus the
    first attempt), the backoff sleeps between consecutive attempts are
    exactly `5 * 2^(attempt-1)` for the fixed `_retry_delay = 5`, the
    returned flag is the success of the last attempt, and every attempt
    before the last failed (a non-2xx status and a raised exception both
    count as failures through `attemptOk`); with retry disabled exactly one
    attempt is made, its outcome is returned, and no sleep occurs. -/
theorem c3_retry_policy :
    ∀ (wh : WebhookConfig) (ev : WebhookEventType) (oc : Nat → AttemptOutcome)
      (ts : Nat) (dataJson : String),
      wh.is_active = true →
      (wh.event_types.contains ev = true ∨
        wh.event_types.contains WebhookEventType.all = true) →
      (1 ≤ (notify wh ev true oc ts dataJson).attempts ∧
        (notify wh ev true oc ts dataJson).attempts ≤ 4) ∧
      (notify wh ev true oc ts dataJson).sleeps =
        (List.range ((notify wh ev true oc ts dataJson).attempts - 1)).map
          (fun i => 5 * 2 ^ i) ∧
      (notify wh ev true oc ts dataJson).delivered =
        attemptOk (oc ((notify wh ev true oc ts dataJson).attempts - 1)) ∧
      (∀ k, k + 1 < (notify wh ev true oc ts dataJson).attempts →
        attemptOk (oc k) = false) ∧
      (notify wh ev false oc ts dataJson).delivered = attemptOk (oc 0) ∧
      (notify wh ev false oc ts dataJson).attempts = 1 ∧
      (notify wh ev false oc ts dataJson).sleeps = [] := by
  intro wh ev oc ts dj ha hsub
  have hn : ∀ retry, notify wh ev retry oc ts dj =
      ⟨(attemptLoop 3 5 retry oc 6 0).1, (attemptLoop 3 5 retry oc 6 0).2.1,
       (attemptLoop 3 5 retry oc 6 0).2.2, some (buildRequest wh ev ts dj)⟩ := by
    intro retry
    unfold notify
    rw [if_neg (by simp [ha]), if_neg (by rcases hsub with h | h <;> simp [h])]
  obtain ⟨n, h1n, hn4, he, hfail⟩ := attemptLoop_true_shape oc
  have hf := attemptLoop_false_eq oc
  rw [hn true, hn false, he, hf]
  exact ⟨⟨h1n, hn4⟩, rfl, rfl, hfail, rfl, rfl, rfl⟩

/-- C3 witness: a 500 outcome followed by a 200 with retry enabled delivers
    after exactly two attempts; with retry disabled one failing attempt is
    made with no sleep. -/
theorem c3_retry_policy_witness :
    (1 ≤ (notify sampleWebhook .email_processed true
        (fun k => if k = 0 then .status 500 else .status 200) 0 "1").attempts ∧
      (notify sampleWebhook .email_processed true
        (fun k => if k = 0 then .status 500 else .status 200) 0 "1").attempts ≤ 4) ∧
    (notify sampleWebhook .email_processed false
      (fun k => if k = 0 then .status 500 else .status 200) 0 "1").attempts = 1 ∧
    (notify sampleWebhook .email_processed false
      (fun k => if k = 0 then .status 500 else .status 200) 0 "1").sleeps = [] :=
  ⟨(c3_retry_policy sampleWebhook .email_processed
      (fun k => if k = 0 then .status 500 else .status 200) 0 "1"
      (by decide) (Or.inl (by decide))).1,
   (c3_retry_policy sampleWebhook .email_processed
      (fun k => if k = 0 then .status 500 else .status 200) 0 "1"
      (by decide) (Or.inl (by decide))).2.2.2.2.2.1,
   (c3_retry_policy sampleWebhook .email_processed
      (fun k => if k = 0 then .status 500 else .status 200) 0 "1"
      (by decide) (Or.inl (by decide))).2.2.2.2.2.2⟩

/-- C10: the extracted-data mapping built by `process_filter` never stores an
    empty-string value (a rule whose extraction is `None` or `""` contributes
    nothing), and every stored key is the name of one of the filter's rules:
    absence is always a missing key. -/
theorem c10_no_empty_values :
    ∀ (rules : List DataExtractionRule) (text html : String)
      (res : List (String × String)),
      processFilterExtract rules text html = .ok res →
      (∀ p ∈ res, p.2 ≠ "") ∧ (∀ p ∈ res, ∃ r ∈ rules, p.1 = r.name) := by
  intro rules text html res h
  have hinv := extractLoop_inv text html rules [] res h (by intro p hp; simp at hp)
  refine ⟨hinv.1, fun p hp => ?_⟩
  rcases hinv.2 p hp with h' | h'
  · simp at h'
  · exact h'

/-- C10 witness: the order-number rule on the spec's concrete text produces a
    mapping whose only value, `"12345"`, is non-empty. -/
theorem c10_no_empty_values_witness :
    processFilterExtract [orderRule] "Order #: 12345 will ship" "" =
      .ok [("order_number", "12345")] ∧
    (("order_number", "12345") : String × String).2 ≠ "" :=
  ⟨by decide,
   (c10_no_empty_values [orderRule] "Order #: 12345 will ship" ""
      [("order_number", "12345")] (by decide)).1 ("order_number", "12345") (by simp)⟩
